import Mathlib

/-! Verification development for the client-side figure compositing and
annotation engine.

Shallow embedding of the client-side figure compositing and annotation
pipeline of the handwritten-notes digitizing application: the coordinate
mapper (`cropImage`), the adjustment pipeline (the filter and per-pixel
stages of `renderCanvas` and `handleSave`), the editor session state and its
operations (`switchToSource`, `applyFiltersToAll`, `handleMagicRecreate`,
`executeCrop`, `handleSave`).

Conventions of the embedding:
* JavaScript numbers on discrete code paths are modelled as rationals (`ℚ`);
  the transcendental gamma curve (`Math.pow`) is modelled over the reals.
* Canvas pixel stores (`Uint8ClampedArray` element assignment) clamp to
  `[0, 255]` and round to the nearest integer, ties to even, per WebIDL.
* External collaborators (image decode, PNG encode via `toDataURL`, text
  rendering, the AI recreation service) are explicit function parameters of
  the operations that call them.
-/

namespace FigureEditor

/-- Crop region in source-raster pixel coordinates, the result of `cropImage`. -/
structure CropRegion where
  sx : ℚ
  sy : ℚ
  sWidth : ℚ
  sHeight : ℚ

/-- Embedding of `cropImage` (App component): maps a normalized
`[ymin, xmin, ymax, xmax]` bounding box on the 0–1000 scale to an absolute
pixel crop region on a `w × h` source raster, with padding 15, clamping the
origin at 0 and the extent at the raster edge. -/
def cropImage (ymin xmin ymax xmax : ℚ) (w h : ℚ) : CropRegion :=
  let padding : ℚ := 15
  let sx := max 0 (xmin / 1000 * w - padding)
  let sy := max 0 (ymin / 1000 * h - padding)
  let sWidth := min (w - sx) ((xmax - xmin) / 1000 * w + padding * 2)
  let sHeight := min (h - sy) ((ymax - ymin) / 1000 * h + padding * 2)
  ⟨sx, sy, sWidth, sHeight⟩

/-- An RGBA pixel; channel values are intended to be bytes in `[0, 255]`. -/
structure Pixel where
  r : ℕ
  g : ℕ
  b : ℕ
  a : ℕ
  deriving DecidableEq

/-- A decoded bitmap image: fixed dimensions plus pixel contents. -/
structure Raster where
  width : ℕ
  height : ℕ
  pix : ℕ → ℕ → Pixel

/-- All four channels of a pixel are bytes. -/
def Pixel.IsByte (p : Pixel) : Prop :=
  p.r ≤ 255 ∧ p.g ≤ 255 ∧ p.b ≤ 255 ∧ p.a ≤ 255

/-- Every pixel of the raster has byte channels. -/
def Raster.Bytes (img : Raster) : Prop := ∀ i j, (img.pix i j).IsByte

/-- Replace every pixel of a raster by its image under `f`. -/
def Raster.mapPixels (f : Pixel → Pixel) (img : Raster) : Raster :=
  ⟨img.width, img.height, fun i j => f (img.pix i j)⟩

/-- Round to the nearest integer, ties to even, over `ℚ`: the rounding used
when a number is stored into a `Uint8ClampedArray` element. -/
def roundHalfEven (x : ℚ) : ℤ :=
  if Int.fract x = 1 / 2 then (if Even ⌊x⌋ then ⌊x⌋ else ⌊x⌋ + 1) else round x

/-- Store a rational value into a `Uint8ClampedArray` element: clamp to
`[0, 255]`, round to nearest (ties to even). -/
def clampToByte (x : ℚ) : ℕ :=
  if x ≤ 0 then 0 else if 255 ≤ x then 255 else (roundHalfEven x).toNat

/-- Round to the nearest integer, ties to even, over `ℝ` (for results of the
transcendental gamma curve). -/
noncomputable def roundHalfEvenR (x : ℝ) : ℤ :=
  if Int.fract x = 1 / 2 then (if Even ⌊x⌋ then ⌊x⌋ else ⌊x⌋ + 1) else round x

/-- Real-valued version of the `Uint8ClampedArray` store. -/
noncomputable def clampToByteR (x : ℝ) : ℕ :=
  if x ≤ 0 then 0 else if 255 ≤ x then 255 else (roundHalfEvenR x).toNat

/-- The per-figure adjustment parameters (`FigureAdjustments` in the editor
component). Slider values are integers but are modelled as rationals. -/
structure FigureAdjustments where
  brightness : ℚ
  contrast : ℚ
  saturate : ℚ
  red : ℚ
  green : ℚ
  blue : ℚ
  gamma : ℚ
  deriving DecidableEq

/-- The identity adjustment parameters, the default for a figure with no
adjustment entry. -/
def identityAdjustments : FigureAdjustments :=
  ⟨100, 100, 100, 100, 100, 100, 1⟩

/-- Clamp an intermediate filter-primitive result to the `[0, 255]` channel
range. -/
def clampChan (x : ℚ) : ℚ := max 0 (min 255 x)

/-- CSS `brightness(amount%)` on one channel (Filter Effects spec: a linear
transfer `c ↦ (amount/100) · c`). -/
def cssBrightness (amount : ℚ) (c : ℚ) : ℚ := clampChan (amount / 100 * c)

/-- CSS `contrast(amount%)` on one channel (linear transfer around the
mid-point `127.5` on the 0–255 scale). -/
def cssContrast (amount : ℚ) (c : ℚ) : ℚ :=
  clampChan ((c - 255 / 2) * (amount / 100) + 255 / 2)

/-- The `ctx.filter = brightness(...) contrast(...) saturate(...)` stage of
`renderCanvas` / `handleSave`, applied to one pixel: brightness, then
contrast, then the saturate color matrix, with the result stored back into
canvas bytes. The alpha channel is not touched by these filters. -/
def applyFilterPixel (adj : FigureAdjustments) (p : Pixel) : Pixel :=
  let r0 := cssContrast adj.contrast (cssBrightness adj.brightness p.r)
  let g0 := cssContrast adj.contrast (cssBrightness adj.brightness p.g)
  let b0 := cssContrast adj.contrast (cssBrightness adj.brightness p.b)
  let s := adj.saturate / 100
  let r1 := clampChan ((0.213 + 0.787 * s) * r0 + (0.715 - 0.715 * s) * g0
    + (0.072 - 0.072 * s) * b0)
  let g1 := clampChan ((0.213 - 0.213 * s) * r0 + (0.715 + 0.285 * s) * g0
    + (0.072 - 0.072 * s) * b0)
  let b1 := clampChan ((0.213 - 0.213 * s) * r0 + (0.715 - 0.715 * s) * g0
    + (0.072 + 0.928 * s) * b0)
  ⟨clampToByte r1, clampToByte g1, clampToByte b1, p.a⟩

/-- One channel of the gain step
`data[i] = Math.min(255, data[i] * (adj.red / 100))`: the computed value is
stored into the `Uint8ClampedArray`, so it is clamped and rounded. -/
def gainChannel (gain : ℚ) (c : ℕ) : ℕ :=
  clampToByte (min 255 ((c : ℚ) * (gain / 100)))

/-- One channel of the gamma step
`data[i] = 255 * Math.pow(data[i] / 255, 1 / adj.gamma)`, reading the value
stored by the gain step and storing the result back. -/
noncomputable def gammaChannel (gamma : ℚ) (c : ℕ) : ℕ :=
  clampToByteR (255 * ((c : ℝ) / 255) ^ ((1 : ℝ) / (gamma : ℝ)))

/-- The per-pixel body of the color balance and gamma loop. This loop appears
verbatim twice in the source — in `renderCanvas` (live preview) and in
`handleSave` (final bake) — and is embedded once. Each color channel gets the
gain step; then, if `gamma ≠ 1`, each color channel gets the gamma step on
the stored gain result. The alpha byte (`data[i+3]`) is never assigned. -/
noncomputable def adjustPixel (adj : FigureAdjustments) (p : Pixel) : Pixel :=
  let r1 := gainChannel adj.red p.r
  let g1 := gainChannel adj.green p.g
  let b1 := gainChannel adj.blue p.b
  if adj.gamma ≠ 1 then
    ⟨gammaChannel adj.gamma r1, gammaChannel adj.gamma g1,
      gammaChannel adj.gamma b1, p.a⟩
  else ⟨r1, g1, b1, p.a⟩

/-- The adjustment pipeline of `renderCanvas` / `handleSave`: draw the source
through the global brightness/contrast/saturate filter, then — only when any
of red/green/blue/gamma differs from identity — read the pixels back and run
the per-pixel gain/gamma loop over them. -/
noncomputable def applyAdjustments (adj : FigureAdjustments) (img : Raster) :
    Raster :=
  let filtered := Raster.mapPixels (applyFilterPixel adj) img
  if adj.red ≠ 100 ∨ adj.green ≠ 100 ∨ adj.blue ≠ 100 ∨ adj.gamma ≠ 1 then
    Raster.mapPixels (adjustPixel adj) filtered
  else filtered

/-- The spec's description of the gain step, in its own words:
"channel *= gain/100 (clamped to 255)". -/
def specChannelGain (gain : ℚ) (c : ℚ) : ℚ := min 255 (c * (gain / 100))

/-- The spec's description of the gamma step, in its own words:
"output = 255 * (input/255)^(1/gamma)". -/
noncomputable def specGammaCurve (gamma : ℚ) (c : ℝ) : ℝ :=
  255 * (c / 255) ^ ((1 : ℝ) / (gamma : ℝ))

/-- A text label placed on a figure: the editor's per-figure text-annotation
record (position, content, color, font size). The source interface name ends
unsuitably for this development, so the structure is called `TextLabel`. -/
structure TextLabel where
  id : String
  x : ℚ
  y : ℚ
  text : String
  color : String
  size : ℚ
  deriving DecidableEq

/-- One figure opened in the editor (`FigureToEdit`): `src` is the
AI-digitized source, `originalSrc` the handwritten crop. -/
structure FigureToEdit where
  id : String
  src : String
  originalSrc : String
  alt : String
  pageIndex : ℕ
  deriving DecidableEq

instance : Inhabited FigureToEdit where
  default := ⟨ "", "", "", "", 0⟩

/-- The crop-selection rectangle, in display coordinates relative to the
container; width and height may be negative while dragging. -/
structure CropRect where
  x : ℚ
  y : ℚ
  w : ℚ
  h : ℚ
  deriving DecidableEq

/-- The editor's tool mode. -/
inductive Mode where
  | view
  | crop
  | draw
  | graph
  | text
  | adjust
  deriving DecidableEq

/-- Update one key of a string-keyed map: the object-spread pattern
`{ ...m, [k]: v }` (and equally `newM[k] = v` on a fresh copy). -/
def mapUpdate {α : Type} (m : String → Option α) (k : String) (v : α) :
    String → Option α :=
  fun j => if j = k then some v else m j

/-- The editor component's state that the session operations read and write:
per-figure maps keyed by figure id, plus the active index, tool mode and the
crop rectangle. Absent map entries mean: use the figure's default source,
identity adjustments, no labels. -/
structure EditorState where
  figures : List FigureToEdit
  currentIndex : ℕ
  adjustments : String → Option FigureAdjustments
  annotations : String → Option (List TextLabel)
  editedSrcs : String → Option String
  selectedAnnotationId : Option String
  mode : Mode
  cropRect : Option CropRect

/-- `figures[currentIndex]` in the component. -/
def currentFigure (st : EditorState) : FigureToEdit :=
  st.figures.getD st.currentIndex default

/-- `adjustments[currentFigure.id] || identity` in the component. -/
def currentAdj (st : EditorState) : FigureAdjustments :=
  (st.adjustments (currentFigure st).id).getD identityAdjustments

/-- Embedding of `switchToSource`: store the chosen source string as the
active figure's working raster and reset that figure's adjustments to
identity. Annotations and every other map entry are untouched. -/
def switchToSource (st : EditorState) (newSource : String) : EditorState :=
  { st with
    editedSrcs := mapUpdate st.editedSrcs (currentFigure st).id newSource
    adjustments :=
      mapUpdate st.adjustments (currentFigure st).id identityAdjustments }

/-- Embedding of `applyFiltersToAll`: write a copy of the active figure's
current adjustment parameters over every figure's adjustment entry. -/
def applyFiltersToAll (st : EditorState) : EditorState :=
  { st with
    adjustments :=
      st.figures.foldl (fun m fig => mapUpdate m fig.id (currentAdj st))
        st.adjustments }

/-- The sequential await-loop of `handleMagicRecreate`: starting from a copy
of `editedSrcs`, recreate each target figure from its current working source,
accumulating the new sources; the first failure aborts the whole loop. The
external AI call is the `recreate` parameter. -/
def recreateLoop {ε : Type} (recreate : String → String → Except ε String) :
    List FigureToEdit → (String → Option String) →
      Except ε (String → Option String)
  | [], updates => Except.ok updates
  | fig :: rest, updates =>
    match recreate ((updates fig.id).getD fig.src) fig.alt with
    | Except.error e => Except.error e
    | Except.ok newSrc => recreateLoop recreate rest (mapUpdate updates fig.id newSrc)

/-- Embedding of `handleMagicRecreate`: run the recreation loop over the
targets (all figures, or just the active one); only when every call succeeds
are the accumulated sources stored and the targets' adjustments reset to
identity. A failure anywhere leaves the state as it was (the catch block
only reports the error). -/
def handleMagicRecreate {ε : Type}
    (recreate : String → String → Except ε String) (all : Bool)
    (st : EditorState) : EditorState :=
  let targets := match all with
    | true => st.figures
    | false => [currentFigure st]
  match recreateLoop recreate targets st.editedSrcs with
  | Except.error _ => st
  | Except.ok updates =>
    { st with
      editedSrcs := updates
      adjustments :=
        targets.foldl (fun m fig => mapUpdate m fig.id identityAdjustments)
          st.adjustments }

/-- The raster extracted by `executeCrop`: the crop rectangle is scaled from
display coordinates to canvas pixels by `canvas.size / displayed.size`, the
temporary canvas gets the absolute (truncated-to-integer) scaled dimensions,
and `drawImage` copies the source sub-region. The browser's sampling of a
fractional source rectangle is modelled by reading the source pixel at the
floored source offset; no claim depends on the sampled pixel values. -/
def cropRaster (canvas : Raster) (r : CropRect) (displayW displayH : ℚ) :
    Raster :=
  let scaleX : ℚ := (canvas.width : ℚ) / displayW
  let scaleY : ℚ := (canvas.height : ℚ) / displayH
  let sx := r.x * scaleX
  let sy := r.y * scaleY
  let sw := r.w * scaleX
  let sh := r.h * scaleY
  { width := (⌊|sw|⌋).toNat
    height := (⌊|sh|⌋).toNat
    pix := fun i j => canvas.pix ((⌊sx⌋).toNat + i) ((⌊sy⌋).toNat + j) }

/-- Embedding of `executeCrop`: a missing crop rectangle or missing canvas is
a no-op; otherwise the cropped region is encoded (`toDataURL`, the `encode`
parameter) and stored as the active figure's working raster, the mode
returns to view and the crop rectangle is cleared. There is no check for a
degenerate (zero-width or zero-height) rectangle. -/
def executeCrop (st : EditorState) (canvas : Option Raster)
    (displayW displayH : ℚ) (encode : Raster → String) : EditorState :=
  match st.cropRect, canvas with
  | none, _ => st
  | some _, none => st
  | some r, some cv =>
    { st with
      editedSrcs := mapUpdate st.editedSrcs (currentFigure st).id
        (encode (cropRaster cv r displayW displayH))
      mode := Mode.view
      cropRect := none }

/-- One entry of the save payload. -/
structure SaveUpdate where
  figureId : String
  pageIndex : ℕ
  newSrc : String
  deriving DecidableEq

/-- The per-figure bake of `handleSave`: decode the figure's working source
(or its default source), run the adjustment pipeline, draw the figure's
labels on top in list order (`drawLabel` stands for the canvas text
rendering), and re-encode the flattened raster. -/
noncomputable def bakeFigure (decode : String → Raster)
    (encode : Raster → String) (drawLabel : Raster → TextLabel → Raster)
    (st : EditorState) (fig : FigureToEdit) : String :=
  let src := (st.editedSrcs fig.id).getD fig.src
  let adj := (st.adjustments fig.id).getD identityAdjustments
  let anns := (st.annotations fig.id).getD []
  encode (anns.foldl drawLabel (applyAdjustments adj (decode src)))

/-- Embedding of `handleSave`: bake every figure of the session, in input
order, into a list of `(figureId, pageIndex, newSrc)` updates. -/
noncomputable def handleSave (decode : String → Raster)
    (encode : Raster → String) (drawLabel : Raster → TextLabel → Raster)
    (st : EditorState) : List SaveUpdate :=
  st.figures.map (fun fig =>
    ⟨fig.id, fig.pageIndex, bakeFigure decode encode drawLabel st fig⟩)

/-- A concrete 1 × 1 test raster used by witnesses. -/
def exRaster : Raster := ⟨1, 1, fun _ _ => ⟨10, 20, 30, 255⟩⟩

/-- A concrete test pixel used by witnesses. -/
def exPixel : Pixel := ⟨10, 20, 30, 255⟩

/-- Concrete adjustment parameters with red gain 200 and everything else at
identity, used by witnesses. -/
def exAdjRed : FigureAdjustments := ⟨100, 100, 100, 200, 100, 100, 1⟩

/-- Concrete figures for witnesses. -/
def exFig1 : FigureToEdit := ⟨ "f1", "s1", "o1", "a1", 0⟩

def exFig2 : FigureToEdit := ⟨ "f2", "s2", "o2", "a2", 0⟩

def exFig3 : FigureToEdit := ⟨ "f3", "s3", "o3", "a3", 1⟩

/-- A concrete three-figure editor session with empty per-figure maps,
active figure `f1`. -/
def exState : EditorState :=
  { figures := [exFig1, exFig2, exFig3]
    currentIndex := 0
    adjustments := fun _ => none
    annotations := fun _ => none
    editedSrcs := fun _ => none
    selectedAnnotationId := none
    mode := Mode.view
    cropRect := none }

/-- `exState` in crop mode with a zero-area crop rectangle (the rectangle a
pointer-down with no movement leaves behind). -/
def exCropState : EditorState :=
  { exState with mode := Mode.crop, cropRect := some ⟨10, 10, 0, 0⟩ }

/-- A concrete 200 × 100 canvas raster. -/
def exCanvas : Raster := ⟨200, 100, fun _ _ => ⟨0, 0, 0, 255⟩⟩

/-- A concrete encoder: records the raster's dimensions. -/
def exEncode : Raster → String :=
  fun img => toString img.width ++ "x" ++ toString img.height

/-- A concrete decoder: every source decodes to `exRaster`. -/
def exDecode : String → Raster := fun _ => exRaster

/-- A concrete text renderer: drawing a label leaves the raster unchanged. -/
def exDrawLabel : Raster → TextLabel → Raster := fun img _ => img

/-- A concrete AI-recreation collaborator that fails exactly on alt text
`a2` (the second figure of `exState`) and succeeds elsewhere. -/
def exRecreate : String → String → Except Unit String :=
  fun src alt => if alt = "a2" then Except.error () else Except.ok ( "n" ++ src)

/-- C1: for every normalized bounding box with all four components in
`[0, 1000]` and every source raster of width `W` and height `H`, the crop
region computed by `cropImage` (padding 15) satisfies `0 ≤ sx`, `0 ≤ sy`,
`sx + sw ≤ W` and `sy + sh ≤ H`: the region is fully contained in
`[0, W] × [0, H]`, and the padding never produces a negative origin or a
region exceeding the source bounds. -/
theorem cropImage_in_bounds (ymin xmin ymax xmax w h : ℚ)
    (hymin0 : 0 ≤ ymin) (hymin1 : ymin ≤ 1000)
    (hxmin0 : 0 ≤ xmin) (hxmin1 : xmin ≤ 1000)
    (hymax0 : 0 ≤ ymax) (hymax1 : ymax ≤ 1000)
    (hxmax0 : 0 ≤ xmax) (hxmax1 : xmax ≤ 1000) :
    0 ≤ (cropImage ymin xmin ymax xmax w h).sx ∧
      0 ≤ (cropImage ymin xmin ymax xmax w h).sy ∧
      (cropImage ymin xmin ymax xmax w h).sx
          + (cropImage ymin xmin ymax xmax w h).sWidth ≤ w ∧
      (cropImage ymin xmin ymax xmax w h).sy
          + (cropImage ymin xmin ymax xmax w h).sHeight ≤ h := by
  simp only [cropImage]
  refine ⟨le_max_left _ _, le_max_left _ _, ?_, ?_⟩
  · have := min_le_left (w - max 0 (xmin / 1000 * w - 15))
      ((xmax - xmin) / 1000 * w + 15 * 2)
    linarith
  · have := min_le_left (h - max 0 (ymin / 1000 * h - 15))
      ((ymax - ymin) / 1000 * h + 15 * 2)
    linarith

/-- Witness for C1, at the spec's own scenario: box `[100,100,300,300]` on a
1000 × 1000 page raster. -/
theorem cropImage_in_bounds_witness :
    0 ≤ (cropImage 100 100 300 300 1000 1000).sx ∧
      0 ≤ (cropImage 100 100 300 300 1000 1000).sy ∧
      (cropImage 100 100 300 300 1000 1000).sx
          + (cropImage 100 100 300 300 1000 1000).sWidth ≤ 1000 ∧
      (cropImage 100 100 300 300 1000 1000).sy
          + (cropImage 100 100 300 300 1000 1000).sHeight ≤ 1000 :=
  cropImage_in_bounds 100 100 300 300 1000 1000 (by norm_num) (by norm_num)
    (by norm_num) (by norm_num) (by norm_num) (by norm_num) (by norm_num)
    (by norm_num)

theorem roundHalfEven_natCast (n : ℕ) : roundHalfEven (n : ℚ) = n := by
  unfold roundHalfEven
  rw [Int.fract_natCast]
  norm_num

theorem clampToByte_natCast {n : ℕ} (h : n ≤ 255) : clampToByte (n : ℚ) = n := by
  unfold clampToByte
  by_cases h0 : (n : ℚ) ≤ 0
  · have hn : n = 0 := by exact_mod_cast le_antisymm h0 (Nat.cast_nonneg n)
    simp [hn]
  · rw [if_neg h0]
    by_cases h255 : (255 : ℚ) ≤ (n : ℚ)
    · have h255' : (255 : ℕ) ≤ n := by exact_mod_cast h255
      have hn : n = 255 := le_antisymm h h255'
      simp [hn]
    · rw [if_neg h255, roundHalfEven_natCast]
      omega

theorem roundHalfEven_le {x : ℚ} (h : x < 255) : roundHalfEven x ≤ 255 := by
  unfold roundHalfEven
  have h1 : (⌊x⌋ : ℚ) < 255 := lt_of_le_of_lt (Int.floor_le x) h
  have h2 : ⌊x⌋ < 255 := by exact_mod_cast h1
  split_ifs with hf hev
  · omega
  · omega
  · rw [round_eq]
    have h3 : x + 1 / 2 < ((256 : ℤ) : ℚ) := by push_cast; linarith
    have h4 : ⌊x + 1 / 2⌋ < 256 := Int.floor_lt.mpr h3
    omega

theorem clampToByte_le (x : ℚ) : clampToByte x ≤ 255 := by
  unfold clampToByte
  split_ifs with h0 h255
  · omega
  · exact le_refl _
  · have := roundHalfEven_le (not_le.mp h255)
    omega

theorem roundHalfEvenR_le {x : ℝ} (h : x < 255) : roundHalfEvenR x ≤ 255 := by
  unfold roundHalfEvenR
  have h1 : (⌊x⌋ : ℝ) < 255 := lt_of_le_of_lt (Int.floor_le x) h
  have h2 : ⌊x⌋ < 255 := by exact_mod_cast h1
  split_ifs with hf hev
  · omega
  · omega
  · rw [round_eq]
    have h3 : x + 1 / 2 < ((256 : ℤ) : ℝ) := by push_cast; linarith
    have h4 : ⌊x + 1 / 2⌋ < 256 := Int.floor_lt.mpr h3
    omega

theorem clampToByteR_le (x : ℝ) : clampToByteR x ≤ 255 := by
  unfold clampToByteR
  split_ifs with h0 h255
  · omega
  · exact le_refl _
  · have := roundHalfEvenR_le (not_le.mp h255)
    omega

theorem clampChan_eq_self {x : ℚ} (h0 : 0 ≤ x) (h1 : x ≤ 255) :
    clampChan x = x := by
  rw [clampChan, min_eq_right h1, max_eq_right h0]

theorem filter_chain_id {c : ℕ} (h : c ≤ 255) :
    cssContrast 100 (cssBrightness 100 (c : ℚ)) = (c : ℚ) := by
  have h0 : (0 : ℚ) ≤ (c : ℚ) := Nat.cast_nonneg _
  have h1 : (c : ℚ) ≤ 255 := by exact_mod_cast h
  have hb : cssBrightness 100 (c : ℚ) = (c : ℚ) := by
    unfold cssBrightness
    have he : (100 : ℚ) / 100 * (c : ℚ) = (c : ℚ) := by ring
    rw [he, clampChan_eq_self h0 h1]
  have hc : cssContrast 100 (c : ℚ) = (c : ℚ) := by
    unfold cssContrast
    have he : ((c : ℚ) - 255 / 2) * (100 / 100) + 255 / 2 = (c : ℚ) := by ring
    rw [he, clampChan_eq_self h0 h1]
  rw [hb, hc]

theorem applyFilterPixel_identity {p : Pixel} (hp : p.IsByte) :
    applyFilterPixel identityAdjustments p = p := by
  obtain ⟨hr, hg, hb, _⟩ := hp
  cases p with
  | mk pr pg pb pa =>
    simp only [applyFilterPixel, identityAdjustments]
    rw [filter_chain_id hr, filter_chain_id hg, filter_chain_id hb]
    have h0r : (0 : ℚ) ≤ (pr : ℚ) := Nat.cast_nonneg _
    have h1r : (pr : ℚ) ≤ 255 := by exact_mod_cast hr
    have h0g : (0 : ℚ) ≤ (pg : ℚ) := Nat.cast_nonneg _
    have h1g : (pg : ℚ) ≤ 255 := by exact_mod_cast hg
    have h0b : (0 : ℚ) ≤ (pb : ℚ) := Nat.cast_nonneg _
    have h1b : (pb : ℚ) ≤ 255 := by exact_mod_cast hb
    have er : (0.213 + 0.787 * ((100 : ℚ) / 100)) * (pr : ℚ)
        + (0.715 - 0.715 * ((100 : ℚ) / 100)) * (pg : ℚ)
        + (0.072 - 0.072 * ((100 : ℚ) / 100)) * (pb : ℚ) = (pr : ℚ) := by ring
    have eg : (0.213 - 0.213 * ((100 : ℚ) / 100)) * (pr : ℚ)
        + (0.715 + 0.285 * ((100 : ℚ) / 100)) * (pg : ℚ)
        + (0.072 - 0.072 * ((100 : ℚ) / 100)) * (pb : ℚ) = (pg : ℚ) := by ring
    have eb : (0.213 - 0.213 * ((100 : ℚ) / 100)) * (pr : ℚ)
        + (0.715 - 0.715 * ((100 : ℚ) / 100)) * (pg : ℚ)
        + (0.072 + 0.928 * ((100 : ℚ) / 100)) * (pb : ℚ) = (pb : ℚ) := by ring
    rw [er, eg, eb, clampChan_eq_self h0r h1r, clampChan_eq_self h0g h1g,
      clampChan_eq_self h0b h1b, clampToByte_natCast hr,
      clampToByte_natCast hg, clampToByte_natCast hb]

theorem applyFilterPixel_isByte (adj : FigureAdjustments) {p : Pixel}
    (hp : p.IsByte) : (applyFilterPixel adj p).IsByte := by
  obtain ⟨-, -, -, ha⟩ := hp
  exact ⟨clampToByte_le _, clampToByte_le _, clampToByte_le _, ha⟩

theorem adjustPixel_isByte (adj : FigureAdjustments) {p : Pixel}
    (hp : p.IsByte) : (adjustPixel adj p).IsByte := by
  obtain ⟨-, -, -, ha⟩ := hp
  unfold adjustPixel
  split_ifs with h
  · exact ⟨clampToByteR_le _, clampToByteR_le _, clampToByteR_le _, ha⟩
  · exact ⟨clampToByte_le _, clampToByte_le _, clampToByte_le _, ha⟩

theorem applyAdjustments_identity_raster {img : Raster} (h : img.Bytes) :
    applyAdjustments identityAdjustments img = img := by
  have hguard : ¬(identityAdjustments.red ≠ 100 ∨
      identityAdjustments.green ≠ 100 ∨ identityAdjustments.blue ≠ 100 ∨
      identityAdjustments.gamma ≠ 1) := by
    simp [identityAdjustments]
  unfold applyAdjustments
  rw [if_neg hguard]
  cases img with
  | mk w hgt pix =>
    simp only [Raster.mapPixels]
    congr 1
    funext i j
    exact applyFilterPixel_identity (h i j)

theorem exRaster_bytes : exRaster.Bytes := by
  intro i j
  refine ⟨?_, ?_, ?_, ?_⟩ <;> norm_num [exRaster]

/-- C3: the adjustment pipeline with identity parameters (brightness 100,
contrast 100, saturate 100, red 100, green 100, blue 100, gamma 1) returns a
raster pixel-identical to the input; and whenever all of red, green, blue and
gamma are at identity, the per-pixel readback stage is skipped entirely — the
pipeline is just the global filter stage. -/
theorem applyAdjustments_identity (img : Raster) (h : img.Bytes) :
    applyAdjustments identityAdjustments img = img ∧
      ∀ adj : FigureAdjustments, adj.red = 100 → adj.green = 100 →
        adj.blue = 100 → adj.gamma = 1 →
        applyAdjustments adj img
          = Raster.mapPixels (applyFilterPixel adj) img := by
  refine ⟨applyAdjustments_identity_raster h, ?_⟩
  intro adj h1 h2 h3 h4
  unfold applyAdjustments
  rw [if_neg (by simp [h1, h2, h3, h4])]

/-- Witness for C3 at a concrete 1 × 1 raster. -/
theorem applyAdjustments_identity_witness :
    applyAdjustments identityAdjustments exRaster = exRaster ∧
      ∀ adj : FigureAdjustments, adj.red = 100 → adj.green = 100 →
        adj.blue = 100 → adj.gamma = 1 →
        applyAdjustments adj exRaster
          = Raster.mapPixels (applyFilterPixel adj) exRaster :=
  applyAdjustments_identity exRaster exRaster_bytes

/-- C4: with any channel gain at or above 100 (in particular red = 200) and a
positive gamma, the adjustment pipeline never produces a channel value above
255: the output raster stays byte-valued, the gain value is clamped at 255 by
the `min` before it is stored (no overflow or wrap), and the gamma curve maps
`[0, 255]` into `[0, 255]`. The per-pixel stage proved here is the one shared
verbatim by the live preview (`renderCanvas`) and the final bake
(`handleSave`). -/
theorem adjustments_no_overflow (adj : FigureAdjustments) (img : Raster)
    (himg : img.Bytes) (hred : 100 ≤ adj.red) (hγ : 0 < adj.gamma) :
    (applyAdjustments adj img).Bytes ∧
      (∀ c : ℚ, specChannelGain adj.red c ≤ 255) ∧
      (∀ c : ℕ, c ≤ 255 → specGammaCurve adj.gamma ((c : ℝ)) ≤ 255) := by
  refine ⟨?_, ?_, ?_⟩
  · unfold applyAdjustments
    split_ifs with hcase
    · intro i j
      exact adjustPixel_isByte adj (applyFilterPixel_isByte adj (himg i j))
    · intro i j
      exact applyFilterPixel_isByte adj (himg i j)
  · intro c
    exact min_le_left _ _
  · intro c hc
    unfold specGammaCurve
    have hγR : (0 : ℝ) < (adj.gamma : ℝ) := by exact_mod_cast hγ
    have h0 : (0 : ℝ) ≤ (c : ℝ) / 255 := by positivity
    have h1 : (c : ℝ) / 255 ≤ 1 := by
      rw [div_le_one (by norm_num : (0 : ℝ) < 255)]
      exact_mod_cast hc
    have he : (0 : ℝ) ≤ (1 : ℝ) / (adj.gamma : ℝ) := by positivity
    have hpow := Real.rpow_le_one h0 h1 he
    calc 255 * ((c : ℝ) / 255) ^ ((1 : ℝ) / (adj.gamma : ℝ))
        ≤ 255 * 1 := by
          exact mul_le_mul_of_nonneg_left hpow (by norm_num)
      _ = 255 := by norm_num

/-- Witness for C4 with red gain 200 on a concrete raster. -/
theorem adjustments_no_overflow_witness :
    (applyAdjustments exAdjRed exRaster).Bytes ∧
      (∀ c : ℚ, specChannelGain exAdjRed.red c ≤ 255) ∧
      (∀ c : ℕ, c ≤ 255 → specGammaCurve exAdjRed.gamma ((c : ℝ)) ≤ 255) :=
  adjustments_no_overflow exAdjRed exRaster exRaster_bytes
    (by norm_num [exAdjRed]) (by norm_num [exAdjRed])

/-- C5: when any of red/green/blue/gamma differ from identity, the per-pixel
transform runs after the global brightness/contrast/saturate filter stage,
and on each pixel it first multiplies every color channel by `gain/100`
clamped at 255 (the spec's gain step), then — exactly when `gamma ≠ 1` — maps
every color channel through the curve `255 * (input/255)^(1/gamma)` (the
spec's gamma step), while the alpha channel is left untouched. -/
theorem perPixel_order (adj : FigureAdjustments) (img : Raster) (p : Pixel)
    (hne : adj.red ≠ 100 ∨ adj.green ≠ 100 ∨ adj.blue ≠ 100 ∨
      adj.gamma ≠ 1) :
    applyAdjustments adj img
        = Raster.mapPixels (adjustPixel adj)
            (Raster.mapPixels (applyFilterPixel adj) img) ∧
      (∀ gain : ℚ, ∀ c : ℕ,
        gainChannel gain c = clampToByte (specChannelGain gain (c : ℚ))) ∧
      (adj.gamma ≠ 1 → adjustPixel adj p =
        ⟨clampToByteR (specGammaCurve adj.gamma (gainChannel adj.red p.r)),
          clampToByteR (specGammaCurve adj.gamma (gainChannel adj.green p.g)),
          clampToByteR (specGammaCurve adj.gamma (gainChannel adj.blue p.b)),
          p.a⟩) ∧
      (adj.gamma = 1 → adjustPixel adj p =
        ⟨gainChannel adj.red p.r, gainChannel adj.green p.g,
          gainChannel adj.blue p.b, p.a⟩) ∧
      (adjustPixel adj p).a = p.a := by
  refine ⟨?_, ?_, ?_, ?_, ?_⟩
  · unfold applyAdjustments
    rw [if_pos hne]
  · intro gain c
    rfl
  · intro h
    simp only [adjustPixel]
    rw [if_pos h]
    rfl
  · intro h
    simp only [adjustPixel]
    rw [if_neg (by simp [h])]
  · simp only [adjustPixel]
    split_ifs <;> rfl

/-- Witness for C5 at red gain 200, other parameters at identity. -/
theorem perPixel_order_witness :
    applyAdjustments exAdjRed exRaster
        = Raster.mapPixels (adjustPixel exAdjRed)
            (Raster.mapPixels (applyFilterPixel exAdjRed) exRaster) ∧
      (∀ gain : ℚ, ∀ c : ℕ,
        gainChannel gain c = clampToByte (specChannelGain gain (c : ℚ))) ∧
      (exAdjRed.gamma ≠ 1 → adjustPixel exAdjRed exPixel =
        ⟨clampToByteR (specGammaCurve exAdjRed.gamma
            (gainChannel exAdjRed.red exPixel.r)),
          clampToByteR (specGammaCurve exAdjRed.gamma
            (gainChannel exAdjRed.green exPixel.g)),
          clampToByteR (specGammaCurve exAdjRed.gamma
            (gainChannel exAdjRed.blue exPixel.b)),
          exPixel.a⟩) ∧
      (exAdjRed.gamma = 1 → adjustPixel exAdjRed exPixel =
        ⟨gainChannel exAdjRed.red exPixel.r,
          gainChannel exAdjRed.green exPixel.g,
          gainChannel exAdjRed.blue exPixel.b, exPixel.a⟩) ∧
      (adjustPixel exAdjRed exPixel).a = exPixel.a :=
  perPixel_order exAdjRed exRaster exPixel (Or.inl (by norm_num [exAdjRed]))

theorem foldl_mapUpdate_const {α : Type} (v : α) :
    ∀ (l : List FigureToEdit) (m : String → Option α) (k : String),
      (l.foldl (fun m' fig => mapUpdate m' fig.id v) m) k
        = if k ∈ l.map (fun fig => fig.id) then some v else m k := by
  intro l
  induction l with
  | nil => intro m k; simp
  | cons x xs ih =>
    intro m k
    simp only [List.foldl_cons, List.map_cons, List.mem_cons]
    rw [ih]
    by_cases hk : k ∈ xs.map (fun fig => fig.id)
    · simp [hk]
    · by_cases hx : k = x.id
      · simp [hk, hx, mapUpdate]
      · simp [hk, hx, mapUpdate]

/-- C6: "apply adjustments to all" writes a verbatim copy of the active
figure's current adjustment parameters over every figure's adjustment entry,
so afterwards every figure's entry equals the active figure's parameters. -/
theorem applyFiltersToAll_copies (st : EditorState) :
    ∀ fig ∈ st.figures,
      (applyFiltersToAll st).adjustments fig.id = some (currentAdj st) := by
  intro fig hfig
  show (st.figures.foldl (fun m f => mapUpdate m f.id (currentAdj st))
    st.adjustments) fig.id = some (currentAdj st)
  rw [foldl_mapUpdate_const]
  rw [if_pos (List.mem_map_of_mem (fun f => f.id) hfig)]

/-- Witness for C6 on the concrete three-figure session. -/
theorem applyFiltersToAll_copies_witness :
    (applyFiltersToAll exState).adjustments exFig2.id
      = some (currentAdj exState) :=
  applyFiltersToAll_copies exState exFig2 (by decide)

/-- C7: switching the active figure's source sets the chosen source as that
figure's working raster, resets that figure's adjustment parameters to
identity, preserves the annotation map (hence that figure's annotation
list), and leaves every other figure's working raster and adjustments — and
the figure list itself — unchanged. -/
theorem switchToSource_resets (st : EditorState) (newSource : String) :
    (switchToSource st newSource).editedSrcs (currentFigure st).id
        = some newSource ∧
      (switchToSource st newSource).adjustments (currentFigure st).id
        = some identityAdjustments ∧
      (switchToSource st newSource).annotations = st.annotations ∧
      (switchToSource st newSource).figures = st.figures ∧
      ∀ fid : String, fid ≠ (currentFigure st).id →
        (switchToSource st newSource).editedSrcs fid = st.editedSrcs fid ∧
          (switchToSource st newSource).adjustments fid
            = st.adjustments fid := by
  refine ⟨?_, ?_, rfl, rfl, ?_⟩
  · simp [switchToSource, mapUpdate]
  · simp [switchToSource, mapUpdate]
  · intro fid h
    exact ⟨by simp [switchToSource, mapUpdate, h],
      by simp [switchToSource, mapUpdate, h]⟩

/-- Witness for C7: switching `f1` to a new source on the concrete session,
checked on the active figure and on the unrelated figure id `f2`. -/
theorem switchToSource_resets_witness :
    (switchToSource exState "ns").editedSrcs (currentFigure exState).id
        = some "ns" ∧
      (switchToSource exState "ns").adjustments (currentFigure exState).id
        = some identityAdjustments ∧
      (switchToSource exState "ns").editedSrcs "f2"
        = exState.editedSrcs "f2" ∧
      (switchToSource exState "ns").adjustments "f2"
        = exState.adjustments "f2" :=
  ⟨(switchToSource_resets exState "ns").1,
    (switchToSource_resets exState "ns").2.1,
    ((switchToSource_resets exState "ns").2.2.2.2 "f2" (by decide)).1,
    ((switchToSource_resets exState "ns").2.2.2.2 "f2" (by decide)).2⟩

/-- C9: batch AI recreation is all-or-nothing: when the sequential
recreation loop over the whole figure list fails on any figure, the state is
left exactly as it was before the call — no working raster and no
adjustment entry is written, including for figures recreated successfully
earlier in the loop. -/
theorem handleMagicRecreate_atomic {ε : Type}
    (recreate : String → String → Except ε String) (st : EditorState) (e : ε)
    (hfail : recreateLoop recreate st.figures st.editedSrcs
      = Except.error e) :
    handleMagicRecreate recreate true st = st := by
  show (match recreateLoop recreate st.figures st.editedSrcs with
    | Except.error _ => st
    | Except.ok updates =>
      { st with
        editedSrcs := updates
        adjustments :=
          st.figures.foldl
            (fun m fig => mapUpdate m fig.id identityAdjustments)
            st.adjustments }) = st
  rw [hfail]

/-- Witness for C9: a recreation collaborator that succeeds on `f1` but
fails on `f2` leaves the concrete three-figure session untouched. -/
theorem handleMagicRecreate_atomic_witness :
    handleMagicRecreate exRecreate true exState = exState :=
  handleMagicRecreate_atomic exRecreate exState () rfl

/-- C8: `handleSave` returns exactly one update entry per session figure, in
the same order as the figure list, and the k-th entry carries the k-th
figure's id and page index together with that figure's baked raster. -/
theorem handleSave_entries (decode : String → Raster)
    (encode : Raster → String) (drawLabel : Raster → TextLabel → Raster)
    (st : EditorState) (k : ℕ) :
    (handleSave decode encode drawLabel st).length = st.figures.length ∧
      ∀ fig : FigureToEdit, st.figures.get? k = some fig →
        (handleSave decode encode drawLabel st).get? k
          = some ⟨fig.id, fig.pageIndex,
              bakeFigure decode encode drawLabel st fig⟩ := by
  constructor
  · exact List.length_map _ _
  · intro fig hfig
    show (st.figures.map (fun f =>
      (⟨f.id, f.pageIndex, bakeFigure decode encode drawLabel st f⟩ :
        SaveUpdate))).get? k = _
    rw [List.get?_map, hfig]
    rfl

/-- Witness for C8: the second entry of the bake of the concrete session. -/
theorem handleSave_entries_witness :
    (handleSave exDecode exEncode exDrawLabel exState).length
        = exState.figures.length ∧
      (handleSave exDecode exEncode exDrawLabel exState).get? 1
        = some ⟨exFig2.id, exFig2.pageIndex,
            bakeFigure exDecode exEncode exDrawLabel exState exFig2⟩ :=
  ⟨(handleSave_entries exDecode exEncode exDrawLabel exState 1).1,
    (handleSave_entries exDecode exEncode exDrawLabel exState 1).2 exFig2
      (by decide)⟩

/-- C10: the save operation bakes and re-encodes even an untouched figure:
with no working-raster override, identity (or absent) adjustments and no
annotations, an update entry is still emitted for it, and its `newSrc` is
the re-encoding of the decoded source raster — the source string is not
passed through unchanged. -/
theorem handleSave_reencodes_untouched (decode : String → Raster)
    (encode : Raster → String) (drawLabel : Raster → TextLabel → Raster)
    (st : EditorState) (k : ℕ) (fig : FigureToEdit)
    (hfig : st.figures.get? k = some fig)
    (hsrc : st.editedSrcs fig.id = none)
    (hadj : st.adjustments fig.id = none ∨
      st.adjustments fig.id = some identityAdjustments)
    (hann : st.annotations fig.id = none ∨ st.annotations fig.id = some [])
    (hbytes : (decode fig.src).Bytes) :
    (handleSave decode encode drawLabel st).get? k
      = some ⟨fig.id, fig.pageIndex, encode (decode fig.src)⟩ := by
  have hbake : bakeFigure decode encode drawLabel st fig
      = encode (decode fig.src) := by
    unfold bakeFigure
    rw [hsrc]
    have hadj' : (st.adjustments fig.id).getD identityAdjustments
        = identityAdjustments := by
      rcases hadj with h | h <;> rw [h] <;> rfl
    have hann' : (st.annotations fig.id).getD ([] : List TextLabel) = [] := by
      rcases hann with h | h <;> rw [h] <;> rfl
    rw [hadj', hann']
    simp only [Option.getD_none, List.foldl_nil]
    rw [applyAdjustments_identity_raster hbytes]
  show (st.figures.map (fun f =>
    (⟨f.id, f.pageIndex, bakeFigure decode encode drawLabel st f⟩ :
      SaveUpdate))).get? k = _
  rw [List.get?_map, hfig]
  simp only [Option.map_some']
  rw [hbake]

/-- Witness for C10: figure `f1` of the concrete session is untouched, and
its entry is the re-encoding of the freshly decoded source. -/
theorem handleSave_reencodes_untouched_witness :
    (handleSave exDecode exEncode exDrawLabel exState).get? 0
      = some ⟨exFig1.id, exFig1.pageIndex, exEncode (exDecode exFig1.src)⟩ :=
  handleSave_reencodes_untouched exDecode exEncode exDrawLabel exState 0
    exFig1 (by decide) rfl (Or.inl rfl) (Or.inl rfl) exRaster_bytes

/-- C2 counterexample: confirming a crop with the degenerate (zero-area)
rectangle `{x := 10, y := 10, w := 0, h := 0}` is not rejected: `executeCrop`
mutates the state — the active figure `f1` had no working raster before the
call and afterwards has one, namely the encoding of an empty 0 × 0 raster. -/
theorem executeCrop_degenerate_counterexample :
    exCropState.editedSrcs (currentFigure exCropState).id = none ∧
      (executeCrop exCropState (some exCanvas) 100 50 exEncode).editedSrcs
          (currentFigure exCropState).id = some "0x0" ∧
      (cropRaster exCanvas ⟨10, 10, 0, 0⟩ 100 50).width = 0 ∧
      (cropRaster exCanvas ⟨10, 10, 0, 0⟩ 100 50).height = 0 := by
  have hw : (cropRaster exCanvas ⟨10, 10, 0, 0⟩ 100 50).width = 0 := by
    show (⌊|(0 : ℚ) * ((exCanvas.width : ℚ) / 100)|⌋).toNat = 0
    simp
  have hh : (cropRaster exCanvas ⟨10, 10, 0, 0⟩ 100 50).height = 0 := by
    show (⌊|(0 : ℚ) * ((exCanvas.height : ℚ) / 50)|⌋).toNat = 0
    simp
  refine ⟨rfl, ?_, hw, hh⟩
  have henc : exEncode (cropRaster exCanvas ⟨10, 10, 0, 0⟩ 100 50)
      = "0x0" := by
    unfold exEncode
    rw [hw, hh]
    rfl
  show (mapUpdate exCropState.editedSrcs (currentFigure exCropState).id
    (exEncode (cropRaster exCanvas ⟨10, 10, 0, 0⟩ 100 50)))
    (currentFigure exCropState).id = some "0x0"
  rw [henc]
  simp [mapUpdate]

/-- C2 amended: `executeCrop` rejects nothing but a missing crop rectangle
or canvas. With a crop rectangle of zero width or height it still commits:
it replaces the active figure's working raster with the encoding of the
cropped raster — which is empty (zero width, respectively zero height) —
clears the crop rectangle and returns the tool to view mode. -/
theorem executeCrop_degenerate (st : EditorState) (r : CropRect)
    (cv : Raster) (displayW displayH : ℚ) (encode : Raster → String)
    (hr : st.cropRect = some r) (hdeg : r.w = 0 ∨ r.h = 0) :
    (executeCrop st (some cv) displayW displayH encode).editedSrcs
        (currentFigure st).id
        = some (encode (cropRaster cv r displayW displayH)) ∧
      ((cropRaster cv r displayW displayH).width = 0 ∨
        (cropRaster cv r displayW displayH).height = 0) ∧
      (executeCrop st (some cv) displayW displayH encode).mode = Mode.view ∧
      (executeCrop st (some cv) displayW displayH encode).cropRect
        = none := by
  have hrun : executeCrop st (some cv) displayW displayH encode
      = { st with
          editedSrcs := mapUpdate st.editedSrcs (currentFigure st).id
            (encode (cropRaster cv r displayW displayH))
          mode := Mode.view
          cropRect := none } := by
    unfold executeCrop
    rw [hr]
  refine ⟨?_, ?_, ?_, ?_⟩
  · rw [hrun]
    simp [mapUpdate]
  · rcases hdeg with h | h
    · left
      show (⌊|r.w * ((cv.width : ℚ) / displayW)|⌋).toNat = 0
      rw [h]
      simp
    · right
      show (⌊|r.h * ((cv.height : ℚ) / displayH)|⌋).toNat = 0
      rw [h]
      simp
  · rw [hrun]
  · rw [hrun]

/-- Witness for the amended C2 on the concrete degenerate crop. -/
theorem executeCrop_degenerate_witness :
    (executeCrop exCropState (some exCanvas) 100 50 exEncode).editedSrcs
        (currentFigure exCropState).id
        = some (exEncode (cropRaster exCanvas ⟨10, 10, 0, 0⟩ 100 50)) ∧
      ((cropRaster exCanvas ⟨10, 10, 0, 0⟩ 100 50).width = 0 ∨
        (cropRaster exCanvas ⟨10, 10, 0, 0⟩ 100 50).height = 0) ∧
      (executeCrop exCropState (some exCanvas) 100 50 exEncode).mode
        = Mode.view ∧
      (executeCrop exCropState (some exCanvas) 100 50 exEncode).cropRect
        = none :=
  executeCrop_degenerate exCropState ⟨10, 10, 0, 0⟩ exCanvas 100 50 exEncode
    rfl (Or.inl rfl)

end FigureEditor
